import Mathlib

/-!
Verification of the DFAEditor repository: a shallow embedding of its data
model (DataProvider.tsx), interaction state machine and edge geometry
(DFAEditor.tsx), LaTeX generator (DFA2Latex), and local-storage load logic,
together with theorems settling the specification claims.

Number models. The source manipulates JavaScript doubles. Two embeddings are
used, each chosen for the fragment it models:
- JNum, an exact fraction (integer numerator over natural denominator, kept
  unnormalized), models the arithmetic of the interaction handlers, the LaTeX
  generator and the load logic, where every computation performed on the
  concrete inputs of the claims is exact in doubles as well;
- the real numbers model the edge-geometry code, whose square roots, sines
  and cosines have no exact representation; the JavaScript non-finite value
  NaN, which arises there from dividing zero by zero, is modeled by the none
  case of Option.
-/

/-- Node of the automaton graph, from the Node interface of DataProvider.tsx.
The coordinate type is a parameter so that the same data model serves the
exact-fraction embedding and the real-number embedding. -/
structure Node (α : Type) where
  id : String
  x : α
  y : α
  label : String
  accept : Bool
deriving DecidableEq, Repr

/-- Edge of the automaton graph, from the Edge interface of DataProvider.tsx.
The field named from in the source is a Lean keyword and is rendered from_. -/
structure Edge (α : Type) where
  id : String
  from_ : String
  to_ : String
  label : String
  loopAngle : Option α
deriving DecidableEq, Repr

/-- Exact fraction modeling a JavaScript double: value n / d. All constructed
values keep d positive. The representation is not normalized; the source only
ever compares numbers by order, never by equality. -/
structure JNum where
  n : Int
  d : Nat
deriving DecidableEq, Repr

/-- Model of an integer-valued JavaScript number literal. -/
def ofInt (k : Int) : JNum := ⟨k, 1⟩

/-- Model of JavaScript addition on (finite) doubles. -/
def jadd (a b : JNum) : JNum := ⟨a.n * b.d + b.n * a.d, a.d * b.d⟩

/-- Model of JavaScript subtraction on (finite) doubles. -/
def jsub (a b : JNum) : JNum := ⟨a.n * b.d - b.n * a.d, a.d * b.d⟩

/-- Model of JavaScript multiplication on (finite) doubles. -/
def jmul (a b : JNum) : JNum := ⟨a.n * b.n, a.d * b.d⟩

/-- Model of JavaScript division; the sign is moved to the numerator so that
the denominator stays a natural number. Division by zero never occurs at the
call sites below (the generator guards both divisions with a positivity
test). -/
def jdiv (a b : JNum) : JNum :=
  if 0 ≤ b.n then ⟨a.n * b.d, a.d * b.n.natAbs⟩ else ⟨-(a.n * b.d), a.d * b.n.natAbs⟩

/-- Model of the JavaScript strict-less-than comparison on exact values. -/
def jlt (a b : JNum) : Bool := a.n * b.d < b.n * a.d

/-- Model of Math.min on two numbers. -/
def jmin (a b : JNum) : JNum := if jlt b a then b else a

/-- Model of Math.max on two numbers. -/
def jmax (a b : JNum) : JNum := if jlt a b then b else a

/-- Model of the negation prefixing -(node.y - minY) in the generator. -/
def jneg (a : JNum) : JNum := ⟨-a.n, a.d⟩

/-- Transient interaction state and graph of DFAEditor.tsx: the useState
fields (nodes, edges, dragging, connecting, connectingPreview, selectedNode,
selectedEdge, draggingLoopEdge, editingNode, editingEdge, tempLabel) and the
two useRef id counters. -/
structure EditorState where
  nodes : List (Node JNum)
  edges : List (Edge JNum)
  dragging : Option String
  connecting : Option String
  connectingPreview : Option (JNum × JNum)
  selectedNode : Option String
  selectedEdge : Option String
  draggingLoopEdge : Option String
  editingNode : Option String
  editingEdge : Option String
  tempLabel : String
  nextNodeId : Nat
  nextEdgeId : Nat
deriving DecidableEq, Repr

/-- Initial editor state: all useState initializers of DFAEditor.tsx and
DataProvider.tsx, with both useRef counters at 0. -/
def initState : EditorState :=
  { nodes := [], edges := [], dragging := none, connecting := none,
    connectingPreview := none, selectedNode := none, selectedEdge := none,
    draggingLoopEdge := none, editingNode := none, editingEdge := none,
    tempLabel := "", nextNodeId := 0, nextEdgeId := 0 }

/-- handleDoubleClick of DFAEditor.tsx: create a node at the pointer position
and immediately enter label-edit mode for it. -/
def handleDoubleClick (x y : JNum) (s : EditorState) : EditorState :=
  let newNode : Node JNum := ⟨"n_" ++ Nat.repr s.nextNodeId, x, y, "", false⟩
  { s with
    nodes := s.nodes ++ [newNode], nextNodeId := s.nextNodeId + 1,
    editingNode := some newNode.id, tempLabel := newNode.label }

/-- handleNodeMouseDown of DFAEditor.tsx: select the node; with shift held
start a connection, otherwise start a drag. -/
def handleNodeMouseDown (nodeId : String) (shiftKey : Bool) (x y : JNum)
    (s : EditorState) : EditorState :=
  let s1 := { s with
    selectedNode := some nodeId, selectedEdge := none }
  if shiftKey then
    { s1 with
    connecting := some nodeId, connectingPreview := some (x, y) }
  else
    { s1 with
    dragging := some nodeId }

/-- handleMouseUp of DFAEditor.tsx: end a drag. -/
def handleMouseUp (s : EditorState) : EditorState := { s with
    dragging := none }

/-- handleNodeClick of DFAEditor.tsx (bound to mouse-up on a node circle):
complete a pending connection as a normal edge or a self-loop, entering
label-edit mode for the new edge; with no pending connection behave as
handleMouseUp. -/
def handleNodeClick (nodeId : String) (s : EditorState) : EditorState :=
  match s.connecting with
  | some c =>
    if c ≠ nodeId then
      let newEdge : Edge JNum := ⟨"e_" ++ Nat.repr s.nextEdgeId, c, nodeId, "", none⟩
      { s with
    edges := s.edges ++ [newEdge], nextEdgeId := s.nextEdgeId + 1,
        connecting := none, connectingPreview := none,
        editingEdge := some newEdge.id, tempLabel := "" }
    else
      let selfLoop : Edge JNum := ⟨"e_" ++ Nat.repr s.nextEdgeId, nodeId, nodeId, "", none⟩
      { s with
    edges := s.edges ++ [selfLoop], nextEdgeId := s.nextEdgeId + 1,
        connecting := none, connectingPreview := none,
        editingEdge := some selfLoop.id, tempLabel := "" }
  | none => handleMouseUp s

/-- handleEdgeClick of DFAEditor.tsx: select the edge. -/
def handleEdgeClick (edgeId : String) (s : EditorState) : EditorState :=
  { s with
    selectedEdge := some edgeId, selectedNode := none }

/-- handleNodeDoubleClick of DFAEditor.tsx: enter label-edit mode for an
existing node, seeding the draft label with its current label. -/
def handleNodeDoubleClick (nodeId : String) (s : EditorState) : EditorState :=
  match s.nodes.find? (fun n => n.id == nodeId) with
  | some node => { s with
    editingNode := some nodeId, tempLabel := node.label }
  | none => s

/-- handleEdgeDoubleClick of DFAEditor.tsx: enter label-edit mode for an
existing edge, seeding the draft label with its current label. -/
def handleEdgeDoubleClick (edgeId : String) (s : EditorState) : EditorState :=
  match s.edges.find? (fun e => e.id == edgeId) with
  | some edge => { s with
    editingEdge := some edgeId, tempLabel := edge.label }
  | none => s

/-- handleNodeRightClick of DFAEditor.tsx: toggle the accept flag. -/
def handleNodeRightClick (nodeId : String) (s : EditorState) : EditorState :=
  { s with
    nodes := s.nodes.map (fun n =>
      if n.id = nodeId then { n with accept := !n.accept } else n) }

/-- handleLoopEdgeMouseDown of DFAEditor.tsx: begin a loop-angle drag. -/
def handleLoopEdgeMouseDown (edgeId : String) (s : EditorState) : EditorState :=
  { s with
    draggingLoopEdge := some edgeId }

/-- handleLoopEdgeMouseUp of DFAEditor.tsx: end a loop-angle drag. -/
def handleLoopEdgeMouseUp (s : EditorState) : EditorState :=
  { s with
    draggingLoopEdge := none }

/-- saveLabelEdit of DFAEditor.tsx: commit the draft label into the node in
edit mode, then into the edge in edit mode, then clear the draft. -/
def saveLabelEdit (s : EditorState) : EditorState :=
  let s1 : EditorState := match s.editingNode with
    | some nid =>
      { s with
    nodes := s.nodes.map (fun n =>
          if n.id = nid then { n with label := s.tempLabel } else n),
        editingNode := none }
    | none => s
  let s2 : EditorState := match s1.editingEdge with
    | some eid =>
      { s1 with
    edges := s1.edges.map (fun e =>
          if e.id = eid then { e with label := s1.tempLabel } else e),
        editingEdge := none }
    | none => s1
  { s2 with
    tempLabel := "" }

/-- handleKeyDown of DFAEditor.tsx: three independent conditionals on the key,
in source order. Enter commits an active label edit; Escape abandons edits and
any pending connection; Delete removes the selected node (cascading to the
edges touching it) and the selected edge. -/
def handleKeyDown (key : String) (s : EditorState) : EditorState :=
  let s1 :=
    if key = "Enter" ∧ (s.editingNode.isSome ∨ s.editingEdge.isSome) then
      saveLabelEdit s
    else s
  let s2 :=
    if key = "Escape" then
      { s1 with
    editingNode := none, editingEdge := none, connecting := none,
        connectingPreview := none, tempLabel := "" }
    else s1
  if key = "Delete" then
    let t1 := match s2.selectedNode with
      | some nid =>
        { s2 with
    nodes := s2.nodes.filter (fun n => n.id ≠ nid),
          edges := s2.edges.filter (fun e => e.from_ ≠ nid ∧ e.to_ ≠ nid),
          selectedNode := none }
      | none => s2
    match t1.selectedEdge with
    | some eid =>
      { t1 with
    edges := t1.edges.filter (fun e => e.id ≠ eid),
        selectedEdge := none }
    | none => t1
  else s2

/-- handleMouseMove of DFAEditor.tsx: drag a node to the pointer position, or
advance the rubber-band preview of a pending connection. The svg element also
runs handleLoopEdgeMouseMove on the same event; that handler only rewrites the
loopAngle of the dragged self-loop (via atan2, modeled in the real-number
geometry section) and never changes node or edge membership, ids or endpoints,
so it is not part of this exact-fraction machine. -/
def handleMouseMove (x y : JNum) (s : EditorState) : EditorState :=
  match s.dragging with
  | some d =>
    { s with
    nodes := s.nodes.map (fun n =>
        if n.id = d then { n with x := x, y := y } else n) }
  | none =>
    if s.connecting.isSome ∧ s.connectingPreview.isSome then
      { s with
    connectingPreview := some (x, y) }
    else s

/-- handleSVGClick of DFAEditor.tsx: only a click whose target is the svg
element itself (empty surface) clears the selection and cancels a pending
connection; clicks on nodes and edges stop propagation or miss the guard. -/
def handleSVGClick (targetIsSvg : Bool) (s : EditorState) : EditorState :=
  if targetIsSvg then
    let s1 := { s with
    selectedNode := none, selectedEdge := none }
    if s1.connecting.isSome then
      { s1 with
    connecting := none, connectingPreview := none }
    else s1
  else s

/-- Interaction events, one per DOM handler wired up in DFAEditor.tsx. Events
naming a node or edge id are only ever delivered by the DOM for an entity that
is currently rendered, hence currently present in the graph. -/
inductive Event where
  | doubleClickCanvas (x y : JNum)
  | nodeMouseDown (nodeId : String) (shiftKey : Bool) (x y : JNum)
  | nodeClick (nodeId : String)
  | nodeDoubleClick (nodeId : String)
  | nodeRightClick (nodeId : String)
  | edgeClick (edgeId : String)
  | edgeDoubleClick (edgeId : String)
  | loopEdgeMouseDown (edgeId : String)
  | mouseMove (x y : JNum)
  | mouseUp
  | svgClick (targetIsSvg : Bool)
  | keyDown (key : String)
  | blurCommit

/-- Dispatch of one event to its handler. A mouse-up anywhere on the surface
runs handleMouseUp and handleLoopEdgeMouseUp, as the svg element does; a
text-field blur runs saveLabelEdit. -/
def applyEvent (s : EditorState) : Event → EditorState
  | Event.doubleClickCanvas x y => handleDoubleClick x y s
  | Event.nodeMouseDown nodeId shiftKey x y => handleNodeMouseDown nodeId shiftKey x y s
  | Event.nodeClick nodeId => handleNodeClick nodeId s
  | Event.nodeDoubleClick nodeId => handleNodeDoubleClick nodeId s
  | Event.nodeRightClick nodeId => handleNodeRightClick nodeId s
  | Event.edgeClick edgeId => handleEdgeClick edgeId s
  | Event.edgeDoubleClick edgeId => handleEdgeDoubleClick edgeId s
  | Event.loopEdgeMouseDown edgeId => handleLoopEdgeMouseDown edgeId s
  | Event.mouseMove x y => handleMouseMove x y s
  | Event.mouseUp => handleLoopEdgeMouseUp (handleMouseUp s)
  | Event.svgClick targetIsSvg => handleSVGClick targetIsSvg s
  | Event.keyDown key => handleKeyDown key s
  | Event.blurCommit => saveLabelEdit s

/-- Folding a list of events over a state. -/
def applyEvents (s : EditorState) (evs : List Event) : EditorState :=
  evs.foldl applyEvent s

/-- Digits of the fractional part of rem / den in decimal, models the digit
expansion JavaScript performs when printing a number; the fuel bounds the
recursion and is never exhausted on the terminating decimals that occur in
the generator parameters below. -/
def fracDigits : Nat → Nat → Nat → String
  | 0, _, _ => ""
  | fuel + 1, rem, den =>
    if den = 0 ∨ rem = 0 then ""
    else Nat.repr (rem * 10 / den) ++ fracDigits fuel (rem * 10 % den) den

/-- Model of the default JavaScript number-to-string conversion used by the
template interpolation of the generator parameters; exact for the terminating
decimals occurring there. -/
def numToStr (a : JNum) : String :=
  let sign := if a.n < 0 then "-" else ""
  let m := a.n.natAbs
  let rem := m % a.d
  sign ++ Nat.repr (m / a.d) ++ (if rem = 0 then "" else "." ++ fracDigits 20 rem a.d)

/-- Model of Number.prototype.toFixed(2): the sign is peeled off first (hence
a negative zero prints without a sign, exactly as in JavaScript), then the
absolute value times 100 is rounded half-up and printed with two digits. -/
def toFixed2 (a : JNum) : String :=
  let sign := if a.n < 0 then "-" else ""
  let x : JNum := ⟨(a.n.natAbs : Int), a.d⟩
  let r := jadd (jmul x ⟨100, 1⟩) ⟨1, 2⟩
  let m : Nat := r.n.toNat / r.d
  sign ++ Nat.repr (m / 100) ++ "." ++ (if m % 100 < 10 then "0" else "") ++ Nat.repr (m % 100)

/-- Model of Math.min over a spread of a nonempty list; the generator only
evaluates it behind its nonempty-nodes guard. -/
def listMinJ : List JNum → JNum
  | [] => ofInt 0
  | x :: xs => xs.foldl jmin x

/-- Model of Math.max over a spread of a nonempty list. -/
def listMaxJ : List JNum → JNum
  | [] => ofInt 0
  | x :: xs => xs.foldl jmax x

/-- shouldSwapLabel of DFA2Latex: swap the label side when the target node is
visually below the source (larger y). The edge argument is unused in the
source as well. -/
def shouldSwapLabel (fromNode toNode : Node JNum) (_edge : Edge JNum) : Bool :=
  jlt fromNode.y toNode.y

/-- Opening line of the generated tikzpicture environment, with the two
interpolated parameters, from generateLatex of DFA2Latex. -/
def tikzHeader (nodeDistance shortenArrows : JNum) : String :=
  "\\begin\x7btikzpicture\x7d[shorten >=" ++ numToStr shortenArrows
    ++ "pt,node distance=" ++ numToStr nodeDistance ++ "cm,on grid,auto]\n"

/-- Option list of one state declaration, from the nodeOptions array built in
generateLatex: state, then initial for the first node when the toggle is on,
then accepting. The array-join of the source is rendered as concatenation of
comma-prefixed fragments, which produces the same string. -/
def nodeOptionsStr (toggleInitial : Bool) (index : Nat) (node : Node JNum) : String :=
  "state" ++ (if index = 0 ∧ toggleInitial then ",initial" else "")
    ++ (if node.accept then ",accepting" else "")

/-- One state declaration line of generateLatex: scaled position relative to
the top-left bound, y negated for the output coordinate system, both printed
with toFixed(2); the label is wrapped as inline math only when nonempty. -/
def stateDeclLine (toggleInitial : Bool) (minX minY scale : JNum) (index : Nat)
    (node : Node JNum) : String :=
  let relativeX := jmul (jsub node.x minX) scale
  let relativeY := jmul (jneg (jsub node.y minY)) scale
  let positionStr := "at (" ++ toFixed2 relativeX ++ "," ++ toFixed2 relativeY ++ ")"
  let contentStr := if node.label ≠ "" then "\x7b$" ++ node.label ++ "$\x7d" else ""
  "   \\node[" ++ nodeOptionsStr toggleInitial index node ++ "] (" ++ node.id ++ ") "
    ++ positionStr ++ " " ++ contentStr ++ ";\n"

/-- Bounding box, scale computation and state-declaration loop of
generateLatex: independent scale factors (1 on a degenerate axis), the
smaller one applied uniformly, then one declaration per node in order. -/
def nodesSection (nodes : List (Node JNum)) (toggleInitial : Bool)
    (targetMaxWidth targetMaxHeight : JNum) : String :=
  let minX := listMinJ (nodes.map (fun n => n.x))
  let maxX := listMaxJ (nodes.map (fun n => n.x))
  let minY := listMinJ (nodes.map (fun n => n.y))
  let maxY := listMaxJ (nodes.map (fun n => n.y))
  let actualWidth := jsub maxX minX
  let actualHeight := jsub maxY minY
  let scaleX := if jlt (ofInt 0) actualWidth then jdiv targetMaxWidth actualWidth else ofInt 1
  let scaleY := if jlt (ofInt 0) actualHeight then jdiv targetMaxHeight actualHeight else ofInt 1
  let scale := jmin scaleX scaleY
  String.join (nodes.enum.map (fun p => stateDeclLine toggleInitial minX minY scale p.1 p.2))

/-- One step of the edge grouping reduce of generateLatex: append the edge to
the entry of its source id, or add a new entry at the end. This is the
insertion-order behavior of a JavaScript object keyed by this application id
strings (never array indices). -/
def addToGroup : List (String × List (Edge JNum)) → Edge JNum → List (String × List (Edge JNum))
  | [], e => [(e.from_, [e])]
  | (k, es) :: rest, e =>
    if k = e.from_ then (k, es ++ [e]) :: rest else (k, es) :: addToGroup rest e

/-- The edgesBySource reduce of generateLatex. -/
def groupBySource (edges : List (Edge JNum)) : List (String × List (Edge JNum)) :=
  edges.foldl addToGroup []

/-- One edge sub-clause of the inner forEach of generateLatex: nothing when
the target node is missing; a fixed loop-above clause for a self-loop; a
directed clause with the optional swap modifier otherwise; the continuation
separator is appended when the edge is not last in its group. -/
def edgeSubclause (nodes : List (Node JNum)) (fromNode : Node JNum)
    (groupLen index : Nat) (e : Edge JNum) : String :=
  match nodes.find? (fun n => n.id == e.to_) with
  | none => ""
  | some toNode =>
    (if e.from_ = e.to_ then
      " edge [loop above] node \x7b" ++ e.label ++ "\x7d ()"
    else
      let swapStr := if shouldSwapLabel fromNode toNode e then " [swap]" else ""
      " edge node" ++ swapStr ++ " \x7b" ++ e.label ++ "\x7d (" ++ toNode.id ++ ")")
    ++ (if index < groupLen - 1 then "\n          " else "")

/-- One group clause of the outer forEach of generateLatex: nothing at all
when the source node is missing (the early return also skips the group
separator and the final semicolon); otherwise the source parenthesis, the
chained sub-clauses, and the separator or terminating semicolon. -/
def groupClause (nodes : List (Node JNum)) (numGroups index : Nat)
    (g : String × List (Edge JNum)) : String :=
  match nodes.find? (fun n => n.id == g.1) with
  | none => ""
  | some fromNode =>
    "     (" ++ fromNode.id ++ ")"
      ++ String.join (g.2.enum.map (fun p => edgeSubclause nodes fromNode g.2.length p.1 p.2))
      ++ (if index < numGroups - 1 then "\n     " else ";\n")

/-- The paths section of generateLatex: present only when there is at least
one edge, holding one group clause per entry of the source grouping. -/
def pathBlock (nodes : List (Node JNum)) (edges : List (Edge JNum)) : String :=
  if edges = [] then ""
  else
    "   \\path[->]\n"
      ++ String.join ((groupBySource edges).enum.map
          (fun p => groupClause nodes (groupBySource edges).length p.1 p.2))

/-- generateLatex of DFA2Latex: placeholder for an empty graph, otherwise the
header, the state declarations, the paths section and the closing line. -/
def generateLatex (nodes : List (Node JNum)) (edges : List (Edge JNum))
    (toggleInitial : Bool) (targetMaxWidth targetMaxHeight nodeDistance shortenArrows : JNum) :
    String :=
  if nodes = [] then "% No nodes to export"
  else
    tikzHeader nodeDistance shortenArrows
      ++ nodesSection nodes toggleInitial targetMaxWidth targetMaxHeight
      ++ pathBlock nodes edges
      ++ "\\end\x7btikzpicture\x7d"

/-- Keys of a list with later duplicates removed, keeping the first
occurrence of each; the reference form of first-appearance order used to
state the grouping claim. -/
def dedupKeys : List String → List String
  | [] => []
  | s :: rest => s :: dedupKeys (rest.filter (fun t => t ≠ s))
termination_by l => l.length
decreasing_by
  simp only [List.length_cons]
  exact Nat.lt_succ_of_le (List.length_filter_le _ _)

/-- Modelled from the spec words for the grouping step: one group per
distinct source id, in order of first appearance in the edge list, each group
carrying exactly that source edges in their original order. The refinement
theorem for C8 compares groupBySource, translated from the code, against this
definition. -/
def specGroups (edges : List (Edge JNum)) : List (String × List (Edge JNum)) :=
  (dedupKeys (edges.map (fun e => e.from_))).map
    (fun s => (s, edges.filter (fun e => e.from_ = s)))

/-- Boolean substring check on the character lists of two strings, used to
state that a text does not occur in the generated output. -/
def hasSubAux (p : List Char) : List Char → Bool
  | [] => p.isPrefixOf []
  | a :: rest => p.isPrefixOf (a :: rest) || hasSubAux p rest

/-- Whether the first string occurs contiguously inside the second. -/
def hasSub (p s : String) : Bool := hasSubAux p.data s.data

/-- Model of String.prototype.split with a single-character separator,
structurally recursive on the character list; agrees with the JavaScript
behavior on every input, including the empty string. -/
def jsSplitAux (c : Char) : List Char → List (List Char)
  | [] => [[]]
  | a :: rest =>
    match jsSplitAux c rest with
    | [] => [[]]
    | g :: gs => if a = c then [] :: g :: gs else (a :: g) :: gs

/-- The split of a string at every occurrence of the separator character. -/
def jsSplit (c : Char) (s : String) : List String :=
  (jsSplitAux c s.data).map (fun l => String.mk l)

/-- Model of parseInt on the strings arising here: the leading run of decimal
digits, or none (NaN) when the string does not start with a digit. -/
def jsParseInt (s : String) : Option Nat :=
  let digits := s.data.takeWhile (fun c => c.isDigit)
  if digits = [] then none
  else some (digits.foldl (fun acc c => acc * 10 + (c.toNat - 48)) 0)

/-- The counter seed the load code parses out of an id: element 1 of the
underscore split fed to parseInt; a missing element (no underscore) or a
non-numeric suffix yields NaN, modeled none. -/
def suffixSeed (id : String) : Option Nat :=
  match jsSplit '_' id with
  | _ :: second :: _ => jsParseInt second
  | _ => none

/-- State owned by the DataProvider variant with counter reseeding: the two
collections and the two id counters; a counter is none when a NaN was stored
into it (parseInt of a malformed id). -/
structure LoadState where
  nodes : List (Node JNum)
  edges : List (Edge JNum)
  nextNodeId : Option Nat
  nextEdgeId : Option Nat
deriving DecidableEq, Repr

/-- loadFromLocalStorage of the DataProvider variant with counter reseeding:
absent stored data leaves the state untouched; otherwise the parsed pair
replaces both collections (an absent field defaulting to the empty list is
already folded into the pair), and each counter is reseeded to one past the
parsed suffix of the LAST loaded id of its kind, skipped when the list is
empty or the last id is the empty string (the falsy guard of the source). -/
def loadFromLocalStorage (stored : Option (List (Node JNum) × List (Edge JNum)))
    (s : LoadState) : LoadState :=
  match stored with
  | none => s
  | some (p_n, p_e) =>
    let s1 := { s with
      nodes := p_n, edges := p_e }
    let s2 := match p_n.getLast? with
      | some lastNode =>
        if lastNode.id = "" then s1
        else { s1 with
          nextNodeId := (suffixSeed lastNode.id).map (fun k => k + 1) }
      | none => s1
    match p_e.getLast? with
    | some lastEdge =>
      if lastEdge.id = "" then s2
      else { s2 with
        nextEdgeId := (suffixSeed lastEdge.id).map (fun k => k + 1) }
    | none => s2

/-- Shape of the geometric data getEdgePath returns: the empty path string of
the early return, the straight segment of a normal edge (whose endpoint
coordinates are NaN, that is none, exactly when the node distance is zero),
or the cubic loop curve, which starts and ends at the same boundary point, so
the start point and the two control points carry the same information as the
path string of the source. -/
inductive PathData where
  | empty : PathData
  | line (sx sy ex ey : Option ℝ) : PathData
  | loop (sx sy c1x c1y c2x c2y : ℝ) : PathData

/-- Result record of getEdgePath: path data, label anchor (none models a NaN
coordinate), and the isLoop flag, which the early return leaves undefined. -/
structure EdgeGeom where
  path : PathData
  labelX : Option ℝ
  labelY : Option ℝ
  isLoop : Option Bool

/-- getEdgePath of DFAEditor.tsx over real coordinates. The early return
covers a missing endpoint node. The self-loop branch converts loopAngle
(default -90) to radians and places the label anchor at radius 100, the curve
start at radius 30 on the node boundary and the two control points at radius
150 at plus and minus 0.7 radians. The normal branch offsets both endpoints
30 units inward along the connecting line and anchors the label 15 units to
the perpendicular side of the midpoint; when the two nodes coincide the
distance is zero and the JavaScript divisions 0 / 0 make every derived
coordinate NaN, surfaced here as the explicit zero-distance case. -/
noncomputable def getEdgePath (e : Edge ℝ) (nodes : List (Node ℝ)) : EdgeGeom :=
  match nodes.find? (fun n => n.id == e.from_), nodes.find? (fun n => n.id == e.to_) with
  | some fromNode, some toNode =>
    if e.from_ = e.to_ then
      let angle := (e.loopAngle.getD (-90)) * (Real.pi / 180)
      { path := PathData.loop
          (fromNode.x + Real.cos angle * 30) (fromNode.y + Real.sin angle * 30)
          (fromNode.x + Real.cos (angle - 0.7) * 150) (fromNode.y + Real.sin (angle - 0.7) * 150)
          (fromNode.x + Real.cos (angle + 0.7) * 150) (fromNode.y + Real.sin (angle + 0.7) * 150),
        labelX := some (fromNode.x + Real.cos angle * 100),
        labelY := some (fromNode.y + Real.sin angle * 100),
        isLoop := some true }
    else
      let dx := toNode.x - fromNode.x
      let dy := toNode.y - fromNode.y
      let distance := Real.sqrt (dx * dx + dy * dy)
      if distance = 0 then
        { path := PathData.line none none none none,
          labelX := none, labelY := none, isLoop := some false }
      else
        let startX := fromNode.x + dx / distance * 30
        let startY := fromNode.y + dy / distance * 30
        let endX := toNode.x - dx / distance * 30
        let endY := toNode.y - dy / distance * 30
        let midX := (startX + endX) / 2
        let midY := (startY + endY) / 2
        let perpX := -dy / distance * 15
        let perpY := dx / distance * 15
        { path := PathData.line (some startX) (some startY) (some endX) (some endY),
          labelX := some (midX + perpX), labelY := some (midY + perpY),
          isLoop := some false }
  | _, _ => { path := PathData.empty, labelX := some 0, labelY := some 0, isLoop := none }

/-- Rotation of a point around a center by an angle, in the screen coordinate
convention of the source (angle 0 along positive x, increasing toward
positive y). -/
noncomputable def rotAround (c : ℝ × ℝ) (phi : ℝ) (p : ℝ × ℝ) : ℝ × ℝ :=
  (c.1 + (p.1 - c.1) * Real.cos phi - (p.2 - c.2) * Real.sin phi,
   c.2 + (p.1 - c.1) * Real.sin phi + (p.2 - c.2) * Real.cos phi)

/-- Position of the self-loop arrowhead glyph from the loop render block of
DFAEditor.tsx: radius 35 along the loop angle, plus a fixed 5-unit offset
applied to the x coordinate only. -/
noncomputable def loopArrowheadPos (fromNode : Node ℝ) (loopAngle : Option ℝ) : ℝ × ℝ :=
  let angle := (loopAngle.getD (-90)) * (Real.pi / 180)
  (fromNode.x + Real.cos angle * 35 + 5, fromNode.y + Real.sin angle * 35)

/-- C2 (code_bug evidence): the Delete-key handler does not clear the
connecting field, so after shift-pressing node n_0 (entering connect mode),
deleting it with the Delete key, and completing the gesture on node n_1, the
editor creates the edge e_0 from the already-deleted n_0 to n_1: the final
state contains a dangling edge, violating the cascade-delete invariant that
every edge references currently-existing nodes. -/
theorem c2_code_theorem :
    (applyEvents initState
      [Event.doubleClickCanvas (ofInt 10) (ofInt 10),
       Event.doubleClickCanvas (ofInt 30) (ofInt 30),
       Event.nodeMouseDown "n_0" true (ofInt 10) (ofInt 10),
       Event.keyDown "Delete",
       Event.nodeClick "n_1"]).edges = [⟨"e_0", "n_0", "n_1", "", none⟩] ∧
    (applyEvents initState
      [Event.doubleClickCanvas (ofInt 10) (ofInt 10),
       Event.doubleClickCanvas (ofInt 30) (ofInt 30),
       Event.nodeMouseDown "n_0" true (ofInt 10) (ofInt 10),
       Event.keyDown "Delete",
       Event.nodeClick "n_1"]).nodes.map (fun n => n.id) = ["n_1"] := by
  decide

/-- C7: the Escape branch of handleKeyDown leaves the node and edge
collections (labels included) untouched while clearing editingNode,
editingEdge, connecting, connectingPreview and the draft label, for every
editor state; in particular a pending draft label is discarded, never written
into any entity. -/
theorem c7_theorem (s : EditorState) :
    (handleKeyDown "Escape" s).nodes = s.nodes ∧
    (handleKeyDown "Escape" s).edges = s.edges ∧
    (handleKeyDown "Escape" s).editingNode = none ∧
    (handleKeyDown "Escape" s).editingEdge = none ∧
    (handleKeyDown "Escape" s).connecting = none ∧
    (handleKeyDown "Escape" s).connectingPreview = none ∧
    (handleKeyDown "Escape" s).tempLabel = "" := by
  simp [handleKeyDown]

/-- Helper: the grouping fold extended by one edge is one grouping step. -/
theorem groupBySource_append (es : List (Edge JNum)) (e : Edge JNum) :
    groupBySource (es ++ [e]) = addToGroup (groupBySource es) e := by
  simp [groupBySource, List.foldl_append]

/-- Helper: membership in the first-occurrence key list. -/
theorem mem_dedupKeys (l : List String) (x : String) : x ∈ dedupKeys l ↔ x ∈ l := by
  induction l using dedupKeys.induct with
  | case1 => simp [dedupKeys]
  | case2 s rest ih =>
    rw [dedupKeys]
    simp only [List.mem_cons, ih, List.mem_filter, decide_eq_true_eq]
    constructor
    · rintro (rfl | ⟨hx, _⟩)
      · exact Or.inl rfl
      · exact Or.inr hx
    · rintro (rfl | hx)
      · exact Or.inl rfl
      · by_cases hxs : x = s
        · exact Or.inl hxs
        · exact Or.inr ⟨hx, hxs⟩

/-- Helper: the first-occurrence key list has no duplicates. -/
theorem nodup_dedupKeys (l : List String) : (dedupKeys l).Nodup := by
  induction l using dedupKeys.induct with
  | case1 => simp [dedupKeys]
  | case2 s rest ih =>
    rw [dedupKeys]
    refine List.nodup_cons.mpr ⟨?_, ih⟩
    rw [mem_dedupKeys]
    simp

/-- Helper: the first-occurrence key list after appending one element. -/
theorem dedupKeys_append (l : List String) (f : String) :
    dedupKeys (l ++ [f]) = if f ∈ l then dedupKeys l else dedupKeys l ++ [f] := by
  induction l using dedupKeys.induct with
  | case1 => simp [dedupKeys]
  | case2 s rest ih =>
    rw [List.cons_append, dedupKeys, dedupKeys, List.filter_append]
    by_cases hf : f = s
    · subst hf
      simp
    · have hfilter : List.filter (fun t => t ≠ s) [f] = [f] := by simp [hf]
      rw [hfilter, ih]
      have hmem : f ∈ List.filter (fun t => t ≠ s) rest ↔ f ∈ rest := by
        simp [List.mem_filter, hf]
      by_cases hfr : f ∈ rest
      · rw [if_pos (hmem.mpr hfr), if_pos (by simp [hfr])]
      · rw [if_neg (fun hc => hfr (hmem.mp hc)), if_neg (by simp [hf, hfr])]
        simp

/-- Helper: one grouping step on an association list of distinct keys. -/
theorem addToGroup_map (keys : List String) (hk : keys.Nodup)
    (g : String → List (Edge JNum)) (e : Edge JNum) :
    addToGroup (keys.map (fun s => (s, g s))) e =
      if e.from_ ∈ keys then
        keys.map (fun s => (s, g s ++ if e.from_ = s then [e] else []))
      else keys.map (fun s => (s, g s)) ++ [(e.from_, [e])] := by
  induction keys with
  | nil => simp [addToGroup]
  | cons k ks ih =>
    have hk1 : k ∉ ks := (List.nodup_cons.mp hk).1
    have hk2 : ks.Nodup := (List.nodup_cons.mp hk).2
    rw [List.map_cons, addToGroup]
    by_cases hke : k = e.from_
    · rw [if_pos hke]
      rw [if_pos (by rw [← hke]; exact List.mem_cons_self k ks)]
      rw [List.map_cons]
      rw [if_pos hke.symm]
      congr 1
      apply List.map_congr_left
      intro s hs
      have : e.from_ ≠ s := fun hc => hk1 (by rw [hke, hc]; exact hs)
      simp [this]
    · rw [if_neg hke, ih hk2]
      by_cases hmem : e.from_ ∈ ks
      · rw [if_pos hmem, if_pos (List.mem_cons_of_mem k hmem), List.map_cons]
        have : e.from_ ≠ k := fun hc => hke hc.symm
        rw [if_neg this]
        simp
      · have hnot : e.from_ ∉ k :: ks := by
          intro hc
          rcases List.mem_cons.mp hc with hc1 | hc2
          · exact hke hc1.symm
          · exact hmem hc2
        rw [if_neg hmem, if_neg hnot]
        simp

/-- Helper: filtering a list for a source id absent from it yields nothing. -/
theorem filter_from_eq_nil (p : List (Edge JNum)) (f : String)
    (h : f ∉ p.map (fun e => e.from_)) :
    p.filter (fun e => e.from_ = f) = [] := by
  induction p with
  | nil => rfl
  | cons a as ih =>
    have h1 : a.from_ ≠ f := by
      intro hc
      exact h (by rw [List.map_cons, hc]; exact List.mem_cons_self f _)
    have h2 : f ∉ as.map (fun e => e.from_) := by
      intro hc
      exact h (by rw [List.map_cons]; exact List.mem_cons_of_mem _ hc)
    rw [List.filter_cons]
    have hdec : (decide (a.from_ = f)) = false := by simp [h1]
    rw [hdec]
    simpa using ih h2

/-- Helper: one grouping step preserves agreement with the reference
grouping. -/
theorem addToGroup_specGroups (p : List (Edge JNum)) (e : Edge JNum) :
    addToGroup (specGroups p) e = specGroups (p ++ [e]) := by
  unfold specGroups
  rw [addToGroup_map _ (nodup_dedupKeys _) _ e]
  have hmapf : (p ++ [e]).map (fun x => x.from_) = p.map (fun x => x.from_) ++ [e.from_] := by
    simp
  rw [hmapf, dedupKeys_append]
  by_cases hin : e.from_ ∈ p.map (fun x => x.from_)
  · rw [if_pos hin, if_pos ((mem_dedupKeys _ _).mpr hin)]
    apply List.map_congr_left
    intro s hs
    rw [List.filter_append]
    by_cases h : e.from_ = s
    · simp [h]
    · simp [h]
  · rw [if_neg hin, if_neg (fun hc => hin ((mem_dedupKeys _ _).mp hc)), List.map_append]
    congr 1
    · apply List.map_congr_left
      intro s hs
      have hsne : e.from_ ≠ s := by
        intro hc
        exact hin (hc ▸ (mem_dedupKeys _ _).mp hs)
      rw [List.filter_append]
      simp [hsne]
    · rw [List.map_cons, List.map_nil, List.filter_append,
        filter_from_eq_nil p e.from_ hin]
      simp

/-- Helper: the grouping computed by the generator equals the reference
grouping, for every edge list. -/
theorem groupBySource_eq_specGroups (edges : List (Edge JNum)) :
    groupBySource edges = specGroups edges := by
  induction edges using List.reverseRecOn with
  | nil => simp [groupBySource, specGroups, dedupKeys]
  | append_singleton es e ih =>
    rw [groupBySource_append, ih, addToGroup_specGroups]

/-- C8: for every nonempty edge list the generator groups edges into exactly
one entry per distinct source id, the entries ordered by the first appearance
of each source id in the edge list and each entry holding that source edges
in their original order (specGroups states this shape directly); the paths
section then emits exactly one group clause per entry, in that order. -/
theorem c8_theorem (nodes : List (Node JNum)) (edges : List (Edge JNum))
    (h : edges ≠ []) :
    groupBySource edges = specGroups edges ∧
    pathBlock nodes edges =
      "   \\path[->]\n"
        ++ String.join ((groupBySource edges).enum.map
            (fun p => groupClause nodes (groupBySource edges).length p.1 p.2)) := by
  exact ⟨groupBySource_eq_specGroups edges, by rw [pathBlock, if_neg h]⟩

/-- C8 witness: the grouping facts hold at a concrete two-edge list with a
shared source. -/
theorem c8_witness :
    ([(⟨"e_0", "n_0", "n_1", "", none⟩ : Edge JNum),
      ⟨"e_1", "n_0", "n_0", "", none⟩] ≠ []) ∧
    (groupBySource
        [⟨"e_0", "n_0", "n_1", "", none⟩, ⟨"e_1", "n_0", "n_0", "", none⟩] =
      specGroups
        [⟨"e_0", "n_0", "n_1", "", none⟩, ⟨"e_1", "n_0", "n_0", "", none⟩] ∧
    pathBlock []
        [⟨"e_0", "n_0", "n_1", "", none⟩, ⟨"e_1", "n_0", "n_0", "", none⟩] =
      "   \\path[->]\n"
        ++ String.join ((groupBySource
              [⟨"e_0", "n_0", "n_1", "", none⟩,
               ⟨"e_1", "n_0", "n_0", "", none⟩]).enum.map
            (fun p => groupClause []
              (groupBySource
                [⟨"e_0", "n_0", "n_1", "", none⟩,
                 ⟨"e_1", "n_0", "n_0", "", none⟩]).length p.1 p.2))) :=
  ⟨by decide,
   c8_theorem []
     [⟨"e_0", "n_0", "n_1", "", none⟩, ⟨"e_1", "n_0", "n_0", "", none⟩]
     (by decide)⟩

/-- C3 counterexample: in the two-node scenario of the claim the literal text
(12.00,-0.00) does not occur in the generated output, because the JavaScript
toFixed conversion prints a negative zero without a sign. -/
theorem c3_counterexample :
    hasSub "(12.00,-0.00)"
      (generateLatex
        [⟨"n_0", ofInt 0, ofInt 0, "", false⟩, ⟨"n_1", ofInt 100, ofInt 0, "", false⟩]
        [⟨"e_0", "n_0", "n_1", "", none⟩]
        true (ofInt 12) (ofInt 8) (ofInt 2) (ofInt 1)) = false := by
  decide

set_option maxRecDepth 40000 in
/-- C3 (amended): the two-node scenario generates exactly two state
declarations, the first marked initial, at the literal positions (0.00,0.00)
and (12.00,0.00), plus one path clause from n_0 to n_1 with empty label text
and no swap modifier. -/
theorem c3_theorem :
    generateLatex
      [⟨"n_0", ofInt 0, ofInt 0, "", false⟩, ⟨"n_1", ofInt 100, ofInt 0, "", false⟩]
      [⟨"e_0", "n_0", "n_1", "", none⟩]
      true (ofInt 12) (ofInt 8) (ofInt 2) (ofInt 1) =
    "\\begin\x7btikzpicture\x7d[shorten >=1pt,node distance=2cm,on grid,auto]\n   \\node[state,initial] (n_0) at (0.00,0.00) ;\n   \\node[state] (n_1) at (12.00,0.00) ;\n   \\path[->]\n     (n_0) edge node \x7b\x7d (n_1);\n\\end\x7btikzpicture\x7d" := by
  decide

/-- C10: the generator is total on every input containing dangling edges.
Part 1, for every nonempty node list and every edge list with at least one
edge: the output is the header, the state declarations of all nodes (computed
from the node list alone, so every node is emitted normally), the paths
header, and the join of one group-clause slot per group of the source
grouping, then the closing line. Part 2: a group whose source node is missing
emits the empty string at every position among any number of groups, so it is
skipped entirely amid the other groups, which keep their own slots of the
join. Part 3: an edge whose target node is missing contributes the empty
string at every position inside any group, its trailing continuation
separator included. Parts 4 and 5: a non-self edge whose target is present,
and a group whose source is present, emit exactly their normal text, which
depends only on their own node lookups, labels and positions, never on a
dangling neighbor. -/
theorem c10_theorem :
    (∀ (nodes : List (Node JNum)) (es : List (Edge JNum)) (ti : Bool) (mw mh nd sa : JNum),
      nodes ≠ [] → es ≠ [] →
      generateLatex nodes es ti mw mh nd sa =
        tikzHeader nd sa ++ nodesSection nodes ti mw mh
          ++ ("   \\path[->]\n"
            ++ String.join ((groupBySource es).enum.map
                (fun p => groupClause nodes (groupBySource es).length p.1 p.2)))
          ++ "\\end\x7btikzpicture\x7d") ∧
    (∀ (nodes : List (Node JNum)) (numGroups index : Nat) (s : String)
        (gs : List (Edge JNum)),
      nodes.find? (fun n => n.id == s) = none →
      groupClause nodes numGroups index (s, gs) = "") ∧
    (∀ (nodes : List (Node JNum)) (fromNode : Node JNum) (groupLen index : Nat)
        (e : Edge JNum),
      nodes.find? (fun n => n.id == e.to_) = none →
      edgeSubclause nodes fromNode groupLen index e = "") ∧
    (∀ (nodes : List (Node JNum)) (fromNode : Node JNum) (groupLen index : Nat)
        (e : Edge JNum) (toNode : Node JNum),
      nodes.find? (fun n => n.id == e.to_) = some toNode →
      e.from_ ≠ e.to_ →
      edgeSubclause nodes fromNode groupLen index e =
        (" edge node" ++ (if shouldSwapLabel fromNode toNode e then " [swap]" else "")
            ++ " \x7b" ++ e.label ++ "\x7d (" ++ toNode.id ++ ")")
          ++ (if index < groupLen - 1 then "\n          " else "")) ∧
    (∀ (nodes : List (Node JNum)) (numGroups index : Nat) (s : String)
        (gs : List (Edge JNum)) (fromNode : Node JNum),
      nodes.find? (fun n => n.id == s) = some fromNode →
      groupClause nodes numGroups index (s, gs) =
        "     (" ++ fromNode.id ++ ")"
          ++ String.join (gs.enum.map
              (fun p => edgeSubclause nodes fromNode gs.length p.1 p.2))
          ++ (if index < numGroups - 1 then "\n     " else ";\n")) := by
  refine ⟨?_, ?_, ?_, ?_, ?_⟩
  · intro nodes es ti mw mh nd sa hnodes hes
    rw [generateLatex, if_neg hnodes, pathBlock, if_neg hes]
  · intro nodes numGroups index s gs h
    simp [groupClause, h]
  · intro nodes fromNode groupLen index e h
    simp [edgeSubclause, h]
  · intro nodes fromNode groupLen index e toNode hfind hself
    simp [edgeSubclause, hfind, hself]
  · intro nodes numGroups index s gs fromNode hfind
    simp [groupClause, hfind]

/-- C10 witness: the five parts evaluated on one mixed input: two nodes
n_0, n_1 and four edges, a valid edge n_0 to n_1, a missing-target edge n_0
to n_9, a missing-source edge n_8 to n_1, and a valid self-loop on n_1. -/
theorem c10_witness :
    (generateLatex
        [⟨"n_0", ofInt 0, ofInt 0, "", false⟩, ⟨"n_1", ofInt 100, ofInt 0, "", false⟩]
        [⟨"e_0", "n_0", "n_1", "a", none⟩, ⟨"e_1", "n_0", "n_9", "b", none⟩,
         ⟨"e_2", "n_8", "n_1", "c", none⟩, ⟨"e_3", "n_1", "n_1", "d", none⟩]
        true (ofInt 12) (ofInt 8) (ofInt 2) (ofInt 1) =
      tikzHeader (ofInt 2) (ofInt 1)
        ++ nodesSection
            [⟨"n_0", ofInt 0, ofInt 0, "", false⟩, ⟨"n_1", ofInt 100, ofInt 0, "", false⟩]
            true (ofInt 12) (ofInt 8)
        ++ ("   \\path[->]\n"
          ++ String.join ((groupBySource
                [⟨"e_0", "n_0", "n_1", "a", none⟩, ⟨"e_1", "n_0", "n_9", "b", none⟩,
                 ⟨"e_2", "n_8", "n_1", "c", none⟩, ⟨"e_3", "n_1", "n_1", "d", none⟩]).enum.map
              (fun p => groupClause
                [⟨"n_0", ofInt 0, ofInt 0, "", false⟩, ⟨"n_1", ofInt 100, ofInt 0, "", false⟩]
                (groupBySource
                  [⟨"e_0", "n_0", "n_1", "a", none⟩, ⟨"e_1", "n_0", "n_9", "b", none⟩,
                   ⟨"e_2", "n_8", "n_1", "c", none⟩,
                   ⟨"e_3", "n_1", "n_1", "d", none⟩]).length p.1 p.2)))
        ++ "\\end\x7btikzpicture\x7d") ∧
    (groupClause
        [⟨"n_0", ofInt 0, ofInt 0, "", false⟩, ⟨"n_1", ofInt 100, ofInt 0, "", false⟩]
        3 1 ("n_8", [⟨"e_2", "n_8", "n_1", "c", none⟩]) = "") ∧
    (edgeSubclause
        [⟨"n_0", ofInt 0, ofInt 0, "", false⟩, ⟨"n_1", ofInt 100, ofInt 0, "", false⟩]
        ⟨"n_0", ofInt 0, ofInt 0, "", false⟩ 2 0 ⟨"e_1", "n_0", "n_9", "b", none⟩ = "") ∧
    (edgeSubclause
        [⟨"n_0", ofInt 0, ofInt 0, "", false⟩, ⟨"n_1", ofInt 100, ofInt 0, "", false⟩]
        ⟨"n_0", ofInt 0, ofInt 0, "", false⟩ 2 0 ⟨"e_0", "n_0", "n_1", "a", none⟩ =
      (" edge node"
          ++ (if shouldSwapLabel ⟨"n_0", ofInt 0, ofInt 0, "", false⟩
                ⟨"n_1", ofInt 100, ofInt 0, "", false⟩
                ⟨"e_0", "n_0", "n_1", "a", none⟩ then " [swap]" else "")
          ++ " \x7b" ++ "a" ++ "\x7d (" ++ "n_1" ++ ")")
        ++ (if 0 < 2 - 1 then "\n          " else "")) ∧
    (groupClause
        [⟨"n_0", ofInt 0, ofInt 0, "", false⟩, ⟨"n_1", ofInt 100, ofInt 0, "", false⟩]
        3 0 ("n_0", [⟨"e_0", "n_0", "n_1", "a", none⟩, ⟨"e_1", "n_0", "n_9", "b", none⟩]) =
      "     (" ++ "n_0" ++ ")"
        ++ String.join
            ([⟨"e_0", "n_0", "n_1", "a", none⟩,
              (⟨"e_1", "n_0", "n_9", "b", none⟩ : Edge JNum)].enum.map
              (fun p => edgeSubclause
                [⟨"n_0", ofInt 0, ofInt 0, "", false⟩, ⟨"n_1", ofInt 100, ofInt 0, "", false⟩]
                ⟨"n_0", ofInt 0, ofInt 0, "", false⟩
                [⟨"e_0", "n_0", "n_1", "a", none⟩,
                 (⟨"e_1", "n_0", "n_9", "b", none⟩ : Edge JNum)].length p.1 p.2))
        ++ (if 0 < 3 - 1 then "\n     " else ";\n")) :=
  ⟨c10_theorem.1
      [⟨"n_0", ofInt 0, ofInt 0, "", false⟩, ⟨"n_1", ofInt 100, ofInt 0, "", false⟩]
      [⟨"e_0", "n_0", "n_1", "a", none⟩, ⟨"e_1", "n_0", "n_9", "b", none⟩,
       ⟨"e_2", "n_8", "n_1", "c", none⟩, ⟨"e_3", "n_1", "n_1", "d", none⟩]
      true (ofInt 12) (ofInt 8) (ofInt 2) (ofInt 1) (by decide) (by decide),
   c10_theorem.2.1
      [⟨"n_0", ofInt 0, ofInt 0, "", false⟩, ⟨"n_1", ofInt 100, ofInt 0, "", false⟩]
      3 1 "n_8" [⟨"e_2", "n_8", "n_1", "c", none⟩] (by decide),
   c10_theorem.2.2.1
      [⟨"n_0", ofInt 0, ofInt 0, "", false⟩, ⟨"n_1", ofInt 100, ofInt 0, "", false⟩]
      ⟨"n_0", ofInt 0, ofInt 0, "", false⟩ 2 0 ⟨"e_1", "n_0", "n_9", "b", none⟩ (by decide),
   c10_theorem.2.2.2.1
      [⟨"n_0", ofInt 0, ofInt 0, "", false⟩, ⟨"n_1", ofInt 100, ofInt 0, "", false⟩]
      ⟨"n_0", ofInt 0, ofInt 0, "", false⟩ 2 0 ⟨"e_0", "n_0", "n_1", "a", none⟩
      ⟨"n_1", ofInt 100, ofInt 0, "", false⟩ (by decide) (by decide),
   c10_theorem.2.2.2.2
      [⟨"n_0", ofInt 0, ofInt 0, "", false⟩, ⟨"n_1", ofInt 100, ofInt 0, "", false⟩]
      3 0 "n_0" [⟨"e_0", "n_0", "n_1", "a", none⟩, ⟨"e_1", "n_0", "n_9", "b", none⟩]
      ⟨"n_0", ofInt 0, ofInt 0, "", false⟩ (by decide)⟩

/-- C4 counterexample: loading the node list n_5, n_2 reseeds the node
counter from the LAST loaded id, giving 3, not one past the highest suffix,
which would be 6; with counter 3 the third node created next would reuse the
loaded id n_5. -/
theorem c4_counterexample :
    (loadFromLocalStorage
      (some ([⟨"n_5", ofInt 0, ofInt 0, "", false⟩, ⟨"n_2", ofInt 0, ofInt 0, "", false⟩], []))
      ⟨[], [], some 0, some 0⟩).nextNodeId = some 3 ∧ (3 : Nat) ≠ 5 + 1 := by
  decide

/-- C4 (amended): the load operation replaces both collections with the
loaded pair and reseeds each counter to one past the parsed numeric suffix of
the LAST loaded node id and the LAST loaded edge id (which is one past the
highest suffix whenever the suffixes appear in nondecreasing order, as in
data the application saved itself); an absent pair leaves the state
untouched, and an empty pair yields empty collections with the counters
unchanged, hence still zero at session start. -/
theorem c4_theorem (pn : List (Node JNum)) (pe : List (Edge JNum)) (s : LoadState)
    (lastN : Node JNum) (lastE : Edge JNum) (a b : Nat)
    (h1 : pn.getLast? = some lastN) (h2 : lastN.id ≠ "")
    (h3 : suffixSeed lastN.id = some a)
    (h4 : pe.getLast? = some lastE) (h5 : lastE.id ≠ "")
    (h6 : suffixSeed lastE.id = some b) :
    (loadFromLocalStorage (some (pn, pe)) s).nodes = pn ∧
    (loadFromLocalStorage (some (pn, pe)) s).edges = pe ∧
    (loadFromLocalStorage (some (pn, pe)) s).nextNodeId = some (a + 1) ∧
    (loadFromLocalStorage (some (pn, pe)) s).nextEdgeId = some (b + 1) ∧
    loadFromLocalStorage none s = s ∧
    loadFromLocalStorage (some ([], [])) s = { s with
      nodes := [], edges := [] } := by
  simp [loadFromLocalStorage, h1, h2, h3, h4, h5, h6]

/-- C4 witness: the amended load behavior evaluated with one loaded node
n_4 and one loaded edge e_7 from the initial state. -/
theorem c4_witness :
    (loadFromLocalStorage
        (some ([⟨"n_4", ofInt 0, ofInt 0, "", false⟩], [⟨"e_7", "n_4", "n_4", "", none⟩]))
        ⟨[], [], some 0, some 0⟩).nodes = [⟨"n_4", ofInt 0, ofInt 0, "", false⟩] ∧
    (loadFromLocalStorage
        (some ([⟨"n_4", ofInt 0, ofInt 0, "", false⟩], [⟨"e_7", "n_4", "n_4", "", none⟩]))
        ⟨[], [], some 0, some 0⟩).edges = [⟨"e_7", "n_4", "n_4", "", none⟩] ∧
    (loadFromLocalStorage
        (some ([⟨"n_4", ofInt 0, ofInt 0, "", false⟩], [⟨"e_7", "n_4", "n_4", "", none⟩]))
        ⟨[], [], some 0, some 0⟩).nextNodeId = some (4 + 1) ∧
    (loadFromLocalStorage
        (some ([⟨"n_4", ofInt 0, ofInt 0, "", false⟩], [⟨"e_7", "n_4", "n_4", "", none⟩]))
        ⟨[], [], some 0, some 0⟩).nextEdgeId = some (7 + 1) ∧
    loadFromLocalStorage none ⟨[], [], some 0, some 0⟩ = ⟨[], [], some 0, some 0⟩ ∧
    loadFromLocalStorage (some ([], [])) ⟨[], [], some 0, some 0⟩ =
      ⟨[], [], some 0, some 0⟩ :=
  c4_theorem [⟨"n_4", ofInt 0, ofInt 0, "", false⟩] [⟨"e_7", "n_4", "n_4", "", none⟩]
    ⟨[], [], some 0, some 0⟩ ⟨"n_4", ofInt 0, ofInt 0, "", false⟩
    ⟨"e_7", "n_4", "n_4", "", none⟩ 4 7 (by decide) (by decide) (by decide)
    (by decide) (by decide) (by decide)

/-- C1 (code_bug evidence): for two distinct nodes at identical coordinates,
getEdgePath takes no degenerate-case guard: the distance is zero, the
JavaScript divisions 0 / 0 produce NaN, and both the path endpoints and the
label anchor come out non-numeric (none), not the zero-length path with a
well-defined anchor the specification requires. -/
theorem c1_code_theorem :
    getEdgePath ⟨"e_0", "n_0", "n_1", "", none⟩
      [⟨"n_0", (0 : ℝ), 0, "", false⟩, ⟨"n_1", (0 : ℝ), 0, "", false⟩] =
      ⟨PathData.line none none none none, none, none, some false⟩ := by
  have hf : List.find? (fun n => n.id == "n_0")
      [(⟨"n_0", (0 : ℝ), 0, "", false⟩ : Node ℝ), ⟨"n_1", (0 : ℝ), 0, "", false⟩] =
      some ⟨"n_0", (0 : ℝ), 0, "", false⟩ := rfl
  have ht : List.find? (fun n => n.id == "n_1")
      [(⟨"n_0", (0 : ℝ), 0, "", false⟩ : Node ℝ), ⟨"n_1", (0 : ℝ), 0, "", false⟩] =
      some ⟨"n_1", (0 : ℝ), 0, "", false⟩ := rfl
  simp only [getEdgePath, hf, ht]
  norm_num [Real.sqrt_zero]
  decide

/-- C9: when either endpoint id of an edge matches no node, getEdgePath is
total and returns the early-exit record: empty path, label anchor (0,0), and
an undefined isLoop flag. -/
theorem c9_theorem (e : Edge ℝ) (nodes : List (Node ℝ))
    (h : nodes.find? (fun n => n.id == e.from_) = none ∨
         nodes.find? (fun n => n.id == e.to_) = none) :
    getEdgePath e nodes = ⟨PathData.empty, some 0, some 0, none⟩ := by
  rcases h with h | h
  · simp only [getEdgePath, h]
  · cases hf : nodes.find? (fun n => n.id == e.from_) with
    | none => simp only [getEdgePath, hf]
    | some fn => simp only [getEdgePath, hf, h]

/-- C9 witness: a stale edge rendered against an empty node list yields the
early-exit record. -/
theorem c9_witness :
    getEdgePath ⟨"e_0", "n_0", "n_1", "", none⟩ ([] : List (Node ℝ)) =
      ⟨PathData.empty, some 0, some 0, none⟩ :=
  c9_theorem ⟨"e_0", "n_0", "n_1", "", none⟩ [] (Or.inl rfl)

/-- Helper: rotating a point at a given radius and angle around a center
advances its angle, in the screen sine convention of the source. -/
theorem rot_radial (cx cy phi psi r : ℝ) :
    rotAround (cx, cy) psi (cx + Real.cos phi * r, cy + Real.sin phi * r) =
      (cx + Real.cos (phi + psi) * r, cy + Real.sin (phi + psi) * r) := by
  simp only [rotAround, Real.cos_add, Real.sin_add, Prod.mk.injEq]
  exact ⟨by ring, by ring⟩

/-- Helper: the self-loop branch of getEdgePath in explicit form, for an
edge whose endpoints both resolve to the same node and whose loopAngle is
set. -/
theorem getEdgePath_loop (e : Edge ℝ) (nodes : List (Node ℝ)) (node : Node ℝ) (α : ℝ)
    (hfrom : e.from_ = node.id) (hto : e.to_ = node.id)
    (hfind : nodes.find? (fun m => m.id == node.id) = some node)
    (hangle : e.loopAngle = some α) :
    getEdgePath e nodes =
      ⟨PathData.loop
          (node.x + Real.cos (α * (Real.pi / 180)) * 30)
          (node.y + Real.sin (α * (Real.pi / 180)) * 30)
          (node.x + Real.cos (α * (Real.pi / 180) - 0.7) * 150)
          (node.y + Real.sin (α * (Real.pi / 180) - 0.7) * 150)
          (node.x + Real.cos (α * (Real.pi / 180) + 0.7) * 150)
          (node.y + Real.sin (α * (Real.pi / 180) + 0.7) * 150),
        some (node.x + Real.cos (α * (Real.pi / 180)) * 100),
        some (node.y + Real.sin (α * (Real.pi / 180)) * 100),
        some true⟩ := by
  simp [getEdgePath, hfrom, hto, hfind, hangle]

/-- C6: for a self-loop, replacing loopAngle θ by θ + Δ rotates the label
anchor, the curve start point and both control points by exactly Δ (converted
to radians) around the node center, with the anchor at radius 100 and the
start point at radius 30 from the center. -/
theorem c6_theorem (nodes : List (Node ℝ)) (node : Node ℝ) (e : Edge ℝ) (θ Δ : ℝ)
    (hfrom : e.from_ = node.id) (hto : e.to_ = node.id)
    (hfind : nodes.find? (fun m => m.id == node.id) = some node) :
    ∃ ax ay sx sy c1x c1y c2x c2y : ℝ,
      getEdgePath { e with
        loopAngle := some θ } nodes =
        ⟨PathData.loop sx sy c1x c1y c2x c2y, some ax, some ay, some true⟩ ∧
      getEdgePath { e with
        loopAngle := some (θ + Δ) } nodes =
        ⟨PathData.loop
            (rotAround (node.x, node.y) (Δ * (Real.pi / 180)) (sx, sy)).1
            (rotAround (node.x, node.y) (Δ * (Real.pi / 180)) (sx, sy)).2
            (rotAround (node.x, node.y) (Δ * (Real.pi / 180)) (c1x, c1y)).1
            (rotAround (node.x, node.y) (Δ * (Real.pi / 180)) (c1x, c1y)).2
            (rotAround (node.x, node.y) (Δ * (Real.pi / 180)) (c2x, c2y)).1
            (rotAround (node.x, node.y) (Δ * (Real.pi / 180)) (c2x, c2y)).2,
          some (rotAround (node.x, node.y) (Δ * (Real.pi / 180)) (ax, ay)).1,
          some (rotAround (node.x, node.y) (Δ * (Real.pi / 180)) (ax, ay)).2,
          some true⟩ ∧
      (ax - node.x) ^ 2 + (ay - node.y) ^ 2 = 100 ^ 2 ∧
      (sx - node.x) ^ 2 + (sy - node.y) ^ 2 = 30 ^ 2 := by
  refine ⟨node.x + Real.cos (θ * (Real.pi / 180)) * 100,
         node.y + Real.sin (θ * (Real.pi / 180)) * 100,
         node.x + Real.cos (θ * (Real.pi / 180)) * 30,
         node.y + Real.sin (θ * (Real.pi / 180)) * 30,
         node.x + Real.cos (θ * (Real.pi / 180) - 0.7) * 150,
         node.y + Real.sin (θ * (Real.pi / 180) - 0.7) * 150,
         node.x + Real.cos (θ * (Real.pi / 180) + 0.7) * 150,
         node.y + Real.sin (θ * (Real.pi / 180) + 0.7) * 150, ?_, ?_, ?_, ?_⟩
  · exact getEdgePath_loop { e with
      loopAngle := some θ } nodes node θ hfrom hto hfind rfl
  · rw [getEdgePath_loop { e with
      loopAngle := some (θ + Δ) } nodes node (θ + Δ) hfrom hto hfind rfl]
    have harg : (θ + Δ) * (Real.pi / 180) = θ * (Real.pi / 180) + Δ * (Real.pi / 180) := by
      ring
    have harg1 : (θ + Δ) * (Real.pi / 180) - 0.7 =
        (θ * (Real.pi / 180) - 0.7) + Δ * (Real.pi / 180) := by ring
    have harg2 : (θ + Δ) * (Real.pi / 180) + 0.7 =
        (θ * (Real.pi / 180) + 0.7) + Δ * (Real.pi / 180) := by ring
    simp only [rot_radial]
    rw [harg1, harg2, harg]
  · have h := Real.cos_sq_add_sin_sq (θ * (Real.pi / 180))
    linear_combination (100 : ℝ) ^ 2 * h
  · have h := Real.cos_sq_add_sin_sq (θ * (Real.pi / 180))
    linear_combination (30 : ℝ) ^ 2 * h

/-- C6 witness: the rotation facts hold for a concrete self-loop on a node at
the origin with angle 0 and delta 0. -/
theorem c6_witness :
    ∃ ax ay sx sy c1x c1y c2x c2y : ℝ,
      getEdgePath ⟨"e_0", "n_0", "n_0", "", some (0 : ℝ)⟩
          [⟨"n_0", (0 : ℝ), 0, "", false⟩] =
        ⟨PathData.loop sx sy c1x c1y c2x c2y, some ax, some ay, some true⟩ ∧
      getEdgePath ⟨"e_0", "n_0", "n_0", "", some ((0 : ℝ) + 0)⟩
          [⟨"n_0", (0 : ℝ), 0, "", false⟩] =
        ⟨PathData.loop
            (rotAround (0, 0) ((0 : ℝ) * (Real.pi / 180)) (sx, sy)).1
            (rotAround (0, 0) ((0 : ℝ) * (Real.pi / 180)) (sx, sy)).2
            (rotAround (0, 0) ((0 : ℝ) * (Real.pi / 180)) (c1x, c1y)).1
            (rotAround (0, 0) ((0 : ℝ) * (Real.pi / 180)) (c1x, c1y)).2
            (rotAround (0, 0) ((0 : ℝ) * (Real.pi / 180)) (c2x, c2y)).1
            (rotAround (0, 0) ((0 : ℝ) * (Real.pi / 180)) (c2x, c2y)).2,
          some (rotAround (0, 0) ((0 : ℝ) * (Real.pi / 180)) (ax, ay)).1,
          some (rotAround (0, 0) ((0 : ℝ) * (Real.pi / 180)) (ax, ay)).2,
          some true⟩ ∧
      (ax - 0) ^ 2 + (ay - 0) ^ 2 = 100 ^ 2 ∧
      (sx - 0) ^ 2 + (sy - 0) ^ 2 = 30 ^ 2 :=
  c6_theorem [⟨"n_0", 0, 0, "", false⟩] ⟨"n_0", 0, 0, "", false⟩
    ⟨"e_0", "n_0", "n_0", "", none⟩ 0 0 rfl rfl rfl

/-- C5 counterexample: with the node at the origin, loop angle -90 and delta
180, the arrowhead glyph position is (5, 35) while rotating the old position
(5, -35) by 180 degrees around the center gives (-5, 35): the arrowhead does
not rotate by the same delta as the curve and label anchor, because of its
fixed 5-unit x offset. -/
theorem c5_counterexample :
    loopArrowheadPos ⟨"n_0", (0 : ℝ), 0, "", false⟩ (some ((-90 : ℝ) + 180)) ≠
      rotAround (0, 0) ((180 : ℝ) * (Real.pi / 180))
        (loopArrowheadPos ⟨"n_0", (0 : ℝ), 0, "", false⟩ (some (-90 : ℝ))) := by
  have h1 : ((-90 : ℝ) + 180) * (Real.pi / 180) = Real.pi / 2 := by ring
  have h2 : ((-90 : ℝ)) * (Real.pi / 180) = -(Real.pi / 2) := by ring
  have h3 : (180 : ℝ) * (Real.pi / 180) = Real.pi := by ring
  have hL : loopArrowheadPos ⟨"n_0", (0 : ℝ), 0, "", false⟩ (some ((-90 : ℝ) + 180)) =
      (5, 35) := by
    simp only [loopArrowheadPos, Option.getD_some]
    rw [h1, Real.cos_pi_div_two, Real.sin_pi_div_two]
    norm_num
  have hP : loopArrowheadPos ⟨"n_0", (0 : ℝ), 0, "", false⟩ (some (-90 : ℝ)) =
      (5, -35) := by
    simp only [loopArrowheadPos, Option.getD_some]
    rw [h2, Real.cos_neg, Real.sin_neg, Real.cos_pi_div_two, Real.sin_pi_div_two]
    norm_num
  have hR : rotAround (0, 0) ((180 : ℝ) * (Real.pi / 180)) ((5 : ℝ), (-35 : ℝ)) =
      (-5, 35) := by
    simp only [rotAround]
    rw [h3, Real.cos_pi, Real.sin_pi]
    norm_num
  intro hcontra
  rw [hL, hP, hR] at hcontra
  have h5 := congrArg Prod.fst hcontra
  norm_num at h5

/-- C5 (amended): changing loopAngle by Δ rotates the arrowhead glyph
position around the node center by Δ only up to the fixed screen offset
(5, 0): subtracting the offset, rotating by Δ in radians, and re-adding the
offset yields the new position exactly, for every node, angle and delta; the
offset itself never rotates. -/
theorem c5_theorem (node : Node ℝ) (θ Δ : ℝ) :
    loopArrowheadPos node (some (θ + Δ)) =
      ((rotAround (node.x, node.y) (Δ * (Real.pi / 180))
          ((loopArrowheadPos node (some θ)).1 - 5, (loopArrowheadPos node (some θ)).2)).1 + 5,
       (rotAround (node.x, node.y) (Δ * (Real.pi / 180))
          ((loopArrowheadPos node (some θ)).1 - 5, (loopArrowheadPos node (some θ)).2)).2) := by
  have hx : (loopArrowheadPos node (some θ)).1 - 5 =
      node.x + Real.cos (θ * (Real.pi / 180)) * 35 := by
    simp only [loopArrowheadPos, Option.getD_some]
    ring
  have hy : (loopArrowheadPos node (some θ)).2 =
      node.y + Real.sin (θ * (Real.pi / 180)) * 35 := by
    simp only [loopArrowheadPos, Option.getD_some]
  rw [hx, hy, rot_radial]
  simp only [loopArrowheadPos, Option.getD_some]
  have harg : (θ + Δ) * (Real.pi / 180) = θ * (Real.pi / 180) + Δ * (Real.pi / 180) := by
    ring
  rw [harg]
